import Mathlib

/-!
Shallow embedding of the finnacle-ai-microservice request pipeline
(src/server.js): a JS value model, the environment helpers, the CORS gate,
the API-key middleware, the portfolio validator, the deduplicating price
fetcher, the /analyze-portfolio handler with its catch clause, and the
health endpoint.  External network effects (axios quote requests, the
OpenAI completion call) are parameterized as explicit outcome arguments.
-/

/-- JavaScript numbers, as far as this service inspects them: NaN, the two
infinities, and finite values (modelled as rationals; the service performs
no arithmetic on them). -/
inductive JSNum where
  | nan : JSNum
  | inf : JSNum
  | negInf : JSNum
  | finite : Rat → JSNum
deriving DecidableEq, Repr

/-- JavaScript values as this service manipulates them.  `undefined` is kept
distinct from `null` because destructuring defaults and `??` distinguish
them.  Objects are association lists with distinct keys (object literals in
the source never repeat a key). -/
inductive JSValue where
  | null : JSValue
  | undefined : JSValue
  | bool : Bool → JSValue
  | num : JSNum → JSValue
  | str : String → JSValue
  | arr : List JSValue → JSValue
  | obj : List (String × JSValue) → JSValue

namespace JSNum

/-- `Number.isNaN`. -/
def isNaN : JSNum → Bool
  | .nan => true
  | _ => false

/-- the JS comparison `n < 0` (false for NaN, false for +Infinity, true for
-Infinity). -/
def ltZero : JSNum → Bool
  | .nan => false
  | .inf => false
  | .negInf => true
  | .finite q => decide (q < 0)

end JSNum

namespace JSValue

/-- JS truthiness: `false`, `0`, `NaN`, `""`, `null`, `undefined` are falsy,
everything else is truthy. -/
def truthy : JSValue → Bool
  | .null => false
  | .undefined => false
  | .bool b => b
  | .num .nan => false
  | .num (.finite q) => decide (q ≠ 0)
  | .num _ => true
  | .str s => decide (s ≠ "")
  | .arr _ => true
  | .obj _ => true

/-- property access `v?.k` (also the access `v.k` at points where the source
guarantees `v` is not null/undefined): a field of an object, `undefined` for
a missing field or any non-object base.  Accessing through null/undefined
yields `undefined`, which is the optional-chaining behaviour; the source
only dereferences unconditionally where the value is known truthy. -/
def optGet (v : JSValue) (key : String) : JSValue :=
  match v with
  | .obj fields =>
    match fields.find? (fun p => p.1 = key) with
    | some p => p.2
    | none => .undefined
  | _ => .undefined

/-- index access `v?.[i]`: an element of an array, else `undefined`. -/
def optIdx (v : JSValue) (i : Nat) : JSValue :=
  match v with
  | .arr xs => (xs.get? i).getD .undefined
  | _ => .undefined

/-- the JS `a || b`. -/
def orElse (a b : JSValue) : JSValue := if a.truthy then a else b

/-- the JS `a ?? b`. -/
def nullish (a b : JSValue) : JSValue :=
  match a with
  | .null => b
  | .undefined => b
  | v => v

end JSValue

/-- `String.prototype.trim()`, modelled at the character level (whitespace
per `Char.isWhitespace`) so that it evaluates inside the kernel. -/
def jsTrim (s : String) : String :=
  String.mk (((s.data.dropWhile Char.isWhitespace).reverse.dropWhile
    Char.isWhitespace).reverse)

/-- `String.prototype.toUpperCase()`, modelled at the character level. -/
def jsToUpper (s : String) : String := String.mk (s.data.map Char.toUpper)

/-- `"...".split(",")` at the character level: split at every comma, keeping
empty pieces (so `""` splits to `[""]`). -/
def splitCommaAux (acc : List Char) : List Char → List String
  | [] => [String.mk acc.reverse]
  | c :: rest =>
    if c = ',' then String.mk acc.reverse :: splitCommaAux [] rest
    else splitCommaAux (c :: acc) rest

/-- `s.split(",")`. -/
def jsSplitComma (s : String) : List String := splitCommaAux [] s.data

/-- one HTTP response as the service produces it: the value passed to
`res.status` (always a number in the source; the catch clause forwards an
upstream value) and the JSON body. -/
structure Response where
  status : JSValue
  body : JSValue

/-- shorthand for the numeric statuses the source writes literally. -/
def statusNum (n : Nat) : JSValue := .num (.finite n)

/-- `requireEnv(key)`: throw `Missing required env: <key>` when the
environment variable is falsy (absent, or the empty string), else return it.
The environment is passed explicitly as `Option String`. -/
def requireEnv (key : String) (value : Option String) : Except String String :=
  match value with
  | none => .error ("Missing required env: " ++ key)
  | some v => if v = "" then .error ("Missing required env: " ++ key) else .ok v

/-- the module-level `allowedOrigins`:
`(process.env.ALLOWED_ORIGINS || "").split(",").map(trim).filter(Boolean)`. -/
def allowedOriginsOf (env : Option String) : List String :=
  ((jsSplitComma (env.getD "")).map jsTrim).filter (fun s => s ≠ "")

/-- `corsOptions.origin`: `true` when the callback allows the request,
`false` when it propagates `Not allowed by CORS`.  The `origin` argument is
the request's Origin header (`none` when the header is absent); `!origin`
is also true for an empty-string header value. -/
def corsOriginAllows (allowedOrigins : List String) (origin : Option String) : Bool :=
  match origin with
  | none => true
  | some o =>
    if o = "" then true
    else if allowedOrigins.length = 0 then true
    else allowedOrigins.contains o

/-- what a middleware does with a request: pass it on, or answer it. -/
inductive MiddlewareResult where
  | next : MiddlewareResult
  | respond : Response → MiddlewareResult

/-- `apiKeyMiddleware`: 500 with the `requireEnv` message when
`AI_SERVICE_KEY` is falsy; 401 `{error:"Unauthorized"}` when the
`x-api-key` header is falsy (absent or empty) or differs from the secret;
otherwise `next()`.  The header is `none` when absent. -/
def apiKeyMiddleware (aiServiceKey : Option String) (header : Option String) :
    MiddlewareResult :=
  match requireEnv "AI_SERVICE_KEY" aiServiceKey with
  | .error msg => .respond ⟨statusNum 500, .obj [("error", .str msg)]⟩
  | .ok expected =>
    match header with
    | none => .respond ⟨statusNum 401, .obj [("error", .str "Unauthorized")]⟩
    | some provided =>
      if provided = "" ∨ provided ≠ expected then
        .respond ⟨statusNum 401, .obj [("error", .str "Unauthorized")]⟩
      else .next

/-- `isNonEmptyString(value)`. -/
def isNonEmptyString (value : JSValue) : Bool :=
  match value with
  | .str s => decide (0 < (jsTrim s).length)
  | _ => false

/-- `typeof item === "object"`: true for objects, arrays and `null`. -/
def typeofIsObject : JSValue → Bool
  | .obj _ => true
  | .arr _ => true
  | .null => true
  | _ => false

/-- the quantity test of `validatePortfolioInput`:
`typeof q !== "undefined" && (typeof q !== "number" || Number.isNaN(q) || q < 0)`. -/
def quantityInvalid (q : JSValue) : Bool :=
  match q with
  | .undefined => false
  | .num n => n.isNaN || n.ltZero
  | _ => true

/-- the `for (const item of portfolio)` loop of `validatePortfolioInput`:
first failing item's message, else `null`. -/
def validateItems : List JSValue → Option String
  | [] => none
  | item :: rest =>
    if !(item.truthy && typeofIsObject item) then
      some "Each portfolio item must be an object"
    else if !(isNonEmptyString (item.optGet "symbol")) then
      some "Each item requires a non-empty `symbol`"
    else if quantityInvalid (item.optGet "quantity") then
      some "`quantity` must be a non-negative number when provided"
    else validateItems rest

/-- `validatePortfolioInput(portfolio)`: `none` for a valid portfolio, the
first failure's message otherwise. -/
def validatePortfolioInput (portfolio : JSValue) : Option String :=
  match portfolio with
  | .arr items =>
    if items.length = 0 then some "`portfolio` must be a non-empty array"
    else validateItems items
  | _ => some "`portfolio` must be a non-empty array"

/-- `String(s).trim().toUpperCase()` for the strings the handler passes
(`String` on a string is the identity). -/
def normalizeSymbol (s : String) : String := jsToUpper (jsTrim s)

/-- insertion into `new Set`: keep an element only when it has not been
seen yet. -/
def dedupGo (seen : List String) : List String → List String
  | [] => []
  | x :: xs => if seen.contains x then dedupGo seen xs else x :: dedupGo (x :: seen) xs

/-- `Array.from(new Set(l))`: deduplication keeping each element's first
occurrence, in order. -/
def dedupFirst (l : List String) : List String := dedupGo [] l

/-- the `unique` list of `fetchPricesForSymbols`: one entry per outbound
quote request. -/
def requestedSymbols (symbols : List String) : List String :=
  dedupFirst (symbols.map normalizeSymbol)

/-- how one outbound quote request settles: the promise fulfils with a
response whose `data` is a JS value, or it rejects (timeout, network error,
a status outside `validateStatus`). -/
inductive FetchOutcome where
  | success : JSValue → FetchOutcome
  | failure : FetchOutcome

/-- the per-request continuation of `fetchPricesForSymbols`:
`.then(resp => [symbol, resp?.data?.c ?? null]).catch(() => [symbol, null])`. -/
def quoteSettled (out : FetchOutcome) : JSValue :=
  match out with
  | .success data => (data.optGet "c").nullish .null
  | .failure => .null

/-- the aggregation step `prices[symbol] = typeof price === "number" ? price : null`. -/
def priceOrNull (price : JSValue) : JSValue :=
  match price with
  | .num n => .num n
  | _ => .null

/-- `fetchPricesForSymbols(symbols, timeoutMs)`: throws (as `Except.error`)
only from `requireEnv("FINNHUB_API_KEY")`; otherwise builds the `prices`
object over the deduplicated upper-cased symbols.  Each request's outcome is
given by `outcome`; `Promise.allSettled` never rejects and every settled
promise here is fulfilled with a two-element array (the `catch` turns every
rejection into `[symbol, null]`), so every unique symbol gets an entry. -/
def fetchPricesForSymbols (finnhubKey : Option String) (symbols : List String)
    (outcome : String → FetchOutcome) : Except String (List (String × JSValue)) :=
  match requireEnv "FINNHUB_API_KEY" finnhubKey with
  | .error msg => .error msg
  | .ok _ =>
    .ok ((requestedSymbols symbols).map
      (fun symbol => (symbol, priceOrNull (quoteSettled (outcome symbol)))))

/-- lookup in the `prices` object. -/
def lookupPrice (prices : List (String × JSValue)) (symbol : String) : Option JSValue :=
  (prices.find? (fun p => p.1 = symbol)).map (fun p => p.2)

/-- `error?.response?.status || 500` of the catch clause. -/
def catchStatus (error : JSValue) : JSValue :=
  ((error.optGet "response").optGet "status").orElse (statusNum 500)

/-- `error?.response?.data || error?.message || "AI analysis failed"` of the
catch clause. -/
def catchMessage (error : JSValue) : JSValue :=
  (((error.optGet "response").optGet "data").orElse (error.optGet "message")).orElse
    (.str "AI analysis failed")

/-- the catch clause of the /analyze-portfolio handler:
`res.status(status).json({ error: typeof message === "string" ? message : "AI analysis failed" })`. -/
def analyzeCatch (error : JSValue) : Response :=
  ⟨catchStatus error,
   .obj [("error",
     match catchMessage error with
     | .str s => .str s
     | _ => .str "AI analysis failed")]⟩

/-- the Error object `requireEnv` throws, as the catch clause reads it:
no `response` property, a string `message`. -/
def errorObj (msg : String) : JSValue := .obj [("message", .str msg)]

/-- `portfolio.map((s) => s.symbol)` on a validated portfolio (validation
guarantees every item is an object whose `symbol` is a non-empty string;
the `""` fallback is unreachable after validation). -/
def portfolioSymbols (portfolio : JSValue) : List String :=
  match portfolio with
  | .arr items =>
    items.map (fun item =>
      match item.optGet "symbol" with
      | .str s => s
      | _ => "")
  | _ => []

/-- `const { portfolio, includePrices = true } = req.body || {}` —
the destructuring default applies exactly when the property is `undefined`. -/
def includePricesOf (body : JSValue) : JSValue :=
  match (body.orElse (.obj [])).optGet "includePrices" with
  | .undefined => .bool true
  | v => v

/-- `completion?.choices?.[0]?.message?.content || "No analysis available."`. -/
def analysisOf (completion : JSValue) : JSValue :=
  ((((completion.optGet "choices").optIdx 0).optGet "message").optGet "content").orElse
    (.str "No analysis available.")

/-- the /analyze-portfolio handler body (after `apiKeyMiddleware` passed):
validation, optional price fetch, completion call, JSON response; any throw
from the price fetch's `requireEnv` or from the completion call lands in the
catch clause.  `completionResult` is how the `openai.chat.completions.create`
promise settles (`Except.error e` = it rejects with `e`).  In the success
response `{ analysis, prices: includePrices ? prices : undefined }`,
JSON serialization omits the `prices` key when its value is `undefined`. -/
def analyzeHandler (finnhubKey : Option String) (body : JSValue)
    (outcome : String → FetchOutcome) (completionResult : Except JSValue JSValue) :
    Response :=
  let portfolio := (body.orElse (.obj [])).optGet "portfolio"
  match validatePortfolioInput portfolio with
  | some validationError => ⟨statusNum 400, .obj [("error", .str validationError)]⟩
  | none =>
    let includePrices := includePricesOf body
    let fetched : Except String (List (String × JSValue)) :=
      if includePrices.truthy then
        fetchPricesForSymbols finnhubKey (portfolioSymbols portfolio) outcome
      else .ok []
    match fetched with
    | .error msg => analyzeCatch (errorObj msg)
    | .ok prices =>
      match completionResult with
      | .error e => analyzeCatch e
      | .ok completion =>
        ⟨statusNum 200,
         .obj ([("analysis", analysisOf completion)] ++
           (if includePrices.truthy then [("prices", .obj prices)] else []))⟩

/-- spec-side validator, rule 2 of section 4.1: "Each element must be a
non-null object" (in JS, arrays are objects too; `null` is excluded). -/
def specIsObject : JSValue → Bool
  | .obj _ => true
  | .arr _ => true
  | _ => false

/-- spec-side validator, rule 3: "Each element's `symbol` must be a string
with non-whitespace content". -/
def specSymbolOk (item : JSValue) : Bool :=
  match item.optGet "symbol" with
  | .str s => decide (jsTrim s ≠ "")
  | _ => false

/-- spec-side validator, rule 4, with the bound the code enforces: if
`quantity` is present it must be a number that is neither NaN nor negative
(the spec's additional finiteness demand is settled separately). -/
def specQuantityOk (item : JSValue) : Bool :=
  match item.optGet "quantity" with
  | .undefined => true
  | .num n => !n.isNaN && !n.ltZero
  | _ => false

/-- spec-side validator, rules 2-4 on one item, in order, first failure
wins. -/
def specItemError (item : JSValue) : Option String :=
  if !specIsObject item then some "Each portfolio item must be an object"
  else if !specSymbolOk item then some "Each item requires a non-empty `symbol`"
  else if !specQuantityOk item then some "`quantity` must be a non-negative number when provided"
  else none

/-- spec-side validator, scanning the items in order for the first failure. -/
def firstItemError : List JSValue → Option String
  | [] => none
  | item :: rest =>
    match specItemError item with
    | some e => some e
    | none => firstItemError rest

/-- spec-side validator (section 4.1 of the spec, rules in order, first
failure wins), to be compared with `validatePortfolioInput`. -/
def validatePortfolioSpec (portfolio : JSValue) : Option String :=
  match portfolio with
  | .arr items =>
    if items.length = 0 then some "`portfolio` must be a non-empty array"
    else firstItemError items
  | _ => some "`portfolio` must be a non-empty array"

/-- the environment variables the service reads. -/
structure EnvConfig where
  OPEN_AI_KEY : Option String
  FINNHUB_API_KEY : Option String
  AI_SERVICE_KEY : Option String
  ALLOWED_ORIGINS : Option String
  NODE_ENV : Option String
deriving DecidableEq, Repr

/-- the route `POST /analyze-portfolio`: `apiKeyMiddleware` first, then the
handler. -/
def analyzeRoute (env : EnvConfig) (apiKeyHeader : Option String) (body : JSValue)
    (outcome : String → FetchOutcome) (completionResult : Except JSValue JSValue) :
    Response :=
  match apiKeyMiddleware env.AI_SERVICE_KEY apiKeyHeader with
  | .respond r => r
  | .next => analyzeHandler env.FINNHUB_API_KEY body outcome completionResult

/-- `Boolean(process.env.X)`: false for absent or empty, true otherwise. -/
def envBool (v : Option String) : Bool := decide (v.getD "" ≠ "")

/-- the health endpoint `GET /` (no api-key middleware on this route;
`res.json` answers with status 200). -/
def healthResponse (env : EnvConfig) : Response :=
  ⟨statusNum 200,
   .obj [("status", .str "ok"),
         ("service", .str "AI Microservice"),
         ("env", .obj [
           ("OPEN_AI_KEY", .bool (envBool env.OPEN_AI_KEY)),
           ("FINNHUB_API_KEY", .bool (envBool env.FINNHUB_API_KEY)),
           ("AI_SERVICE_KEY", .bool (envBool env.AI_SERVICE_KEY)),
           ("ALLOWED_ORIGINS", .arr ((allowedOriginsOf env.ALLOWED_ORIGINS).map .str)),
           ("node_env", ((Option.map JSValue.str env.NODE_ENV).getD .null).orElse .null)])]⟩

/-! ## Helper lemmas -/

theorem mem_dedupGo (a : String) (l : List String) :
    ∀ seen : List String, a ∈ dedupGo seen l ↔ a ∈ l ∧ a ∉ seen := by
  induction l with
  | nil => intro seen; simp [dedupGo]
  | cons x xs ih =>
    intro seen
    by_cases hx : seen.contains x
    · rw [dedupGo, if_pos hx, ih]
      have hxs : x ∈ seen := List.elem_iff.mp hx
      constructor
      · rintro ⟨h1, h2⟩; exact ⟨List.mem_cons_of_mem _ h1, h2⟩
      · rintro ⟨h1, h2⟩
        rcases List.mem_cons.mp h1 with rfl | h1
        · exact absurd hxs h2
        · exact ⟨h1, h2⟩
    · rw [dedupGo, if_neg hx]
      have hxs : x ∉ seen := fun h => hx (List.elem_iff.mpr h)
      constructor
      · intro h
        rcases List.mem_cons.mp h with rfl | h
        · exact ⟨List.mem_cons_self _ _, hxs⟩
        · rcases (ih _).mp h with ⟨h1, h2⟩
          exact ⟨List.mem_cons_of_mem _ h1, fun hs => h2 (List.mem_cons_of_mem _ hs)⟩
      · rintro ⟨h1, h2⟩
        rcases List.mem_cons.mp h1 with rfl | h1
        · exact List.mem_cons_self _ _
        · by_cases hax : a = x
          · subst hax; exact List.mem_cons_self _ _
          · refine List.mem_cons_of_mem _ ((ih _).mpr ⟨h1, fun hmem => ?_⟩)
            rcases List.mem_cons.mp hmem with rfl | hmem
            · exact hax rfl
            · exact h2 hmem

theorem mem_dedupFirst (a : String) (l : List String) : a ∈ dedupFirst l ↔ a ∈ l := by
  rw [dedupFirst, mem_dedupGo]
  simp

theorem nodup_dedupGo (l : List String) : ∀ seen, (dedupGo seen l).Nodup := by
  induction l with
  | nil => intro seen; simp [dedupGo]
  | cons x xs ih =>
    intro seen
    by_cases hx : seen.contains x
    · rw [dedupGo, if_pos hx]; exact ih _
    · rw [dedupGo, if_neg hx]
      refine List.nodup_cons.mpr ⟨fun hmem => ?_, ih _⟩
      exact ((mem_dedupGo x xs _).mp hmem).2 (List.mem_cons_self _ _)

theorem nodup_dedupFirst (l : List String) : (dedupFirst l).Nodup := nodup_dedupGo l []

theorem lookupPrice_map (f : String → JSValue) (s : String) (l : List String) :
    lookupPrice (l.map fun x => (x, f x)) s = if s ∈ l then some (f s) else none := by
  induction l with
  | nil => rfl
  | cons x xs ih =>
    by_cases hx : x = s
    · subst hx
      simp [lookupPrice, List.find?]
    · have hsx : s ≠ x := Ne.symm hx
      have hdec : (decide (x = s)) = false := decide_eq_false hx
      simp only [List.map_cons, lookupPrice, List.find?, hdec] at ih ⊢
      rw [ih]
      simp [List.mem_cons, hsx]

theorem fetchPrices_ok (finnhubKey : String) (hkey : finnhubKey ≠ "")
    (symbols : List String) (outcome : String → FetchOutcome) :
    fetchPricesForSymbols (some finnhubKey) symbols outcome =
      Except.ok ((requestedSymbols symbols).map
        fun s => (s, priceOrNull (quoteSettled (outcome s)))) := by
  simp [fetchPricesForSymbols, requireEnv, hkey]

/-! ## C1 -/

/-- C1: with the quote-provider API key configured, `fetchPricesForSymbols`
never throws, regardless of how each individual quote request settles; every
deduplicated symbol whose request failed is mapped to `null`, and changing
one symbol's outcome never removes or alters the entry of any sibling
symbol. -/
theorem fetchPricesForSymbols_fault_isolation
    (finnhubKey : String) (hkey : finnhubKey ≠ "")
    (symbols : List String) (o1 o2 : String → FetchOutcome) (t : String)
    (hagree : ∀ s, s ≠ t → o1 s = o2 s) :
    ∃ m1 m2,
      fetchPricesForSymbols (some finnhubKey) symbols o1 = Except.ok m1 ∧
      fetchPricesForSymbols (some finnhubKey) symbols o2 = Except.ok m2 ∧
      (∀ s ∈ requestedSymbols symbols, o1 s = FetchOutcome.failure →
        lookupPrice m1 s = some JSValue.null) ∧
      (∀ s ∈ requestedSymbols symbols, s ≠ t →
        lookupPrice m1 s = lookupPrice m2 s) := by
  refine ⟨_, _, fetchPrices_ok finnhubKey hkey symbols o1,
    fetchPrices_ok finnhubKey hkey symbols o2, ?_, ?_⟩
  · intro s hs hfail
    rw [lookupPrice_map]
    simp [hs, hfail, quoteSettled, priceOrNull]
  · intro s hs hne
    rw [lookupPrice_map, lookupPrice_map]
    simp [hs, hagree s hne]

/-- C1 witness: two symbols, one request failing, instantiated concretely. -/
theorem fetchPricesForSymbols_fault_isolation_witness :
    ∃ m1 m2,
      fetchPricesForSymbols (some "finnhub-key") ["AAPL", "MSFT"]
        (fun _ => FetchOutcome.failure) = Except.ok m1 ∧
      fetchPricesForSymbols (some "finnhub-key") ["AAPL", "MSFT"]
        (fun _ => FetchOutcome.failure) = Except.ok m2 ∧
      (∀ s ∈ requestedSymbols ["AAPL", "MSFT"],
        (fun _ => FetchOutcome.failure) s = FetchOutcome.failure →
        lookupPrice m1 s = some JSValue.null) ∧
      (∀ s ∈ requestedSymbols ["AAPL", "MSFT"], s ≠ "AAPL" →
        lookupPrice m1 s = lookupPrice m2 s) :=
  fetchPricesForSymbols_fault_isolation "finnhub-key" (by decide)
    ["AAPL", "MSFT"] (fun _ => FetchOutcome.failure) (fun _ => FetchOutcome.failure)
    "AAPL" (fun _ _ => rfl)

/-! ## C2 -/

/-- C2: with the key configured, the returned price map's key list is
exactly the deduplicated trim-and-uppercase normalization of the input (so
one request per unique symbol, with no duplicates — e.g. `["aapl", "AAPL",
"msft"]` yields exactly `AAPL` and `MSFT`), and each key's value is the
provider's `c` field when that field is a JSON number and `null` otherwise
(missing field, non-number value, or failed request). -/
theorem fetchPricesForSymbols_keys_values
    (finnhubKey : String) (hkey : finnhubKey ≠ "")
    (symbols : List String) (outcome : String → FetchOutcome) :
    ∃ m, fetchPricesForSymbols (some finnhubKey) symbols outcome = Except.ok m ∧
      m.map Prod.fst = requestedSymbols symbols ∧
      (requestedSymbols symbols).Nodup ∧
      (∀ s, s ∈ requestedSymbols symbols ↔ s ∈ symbols.map normalizeSymbol) ∧
      requestedSymbols ["aapl", "AAPL", "msft"] = ["AAPL", "MSFT"] ∧
      (∀ s ∈ requestedSymbols symbols,
        lookupPrice m s = some (match outcome s with
          | .success data =>
            match data.optGet "c" with
            | .num n => JSValue.num n
            | _ => JSValue.null
          | .failure => JSValue.null)) ∧
      (∀ s, s ∉ requestedSymbols symbols → lookupPrice m s = none) := by
  refine ⟨_, fetchPrices_ok finnhubKey hkey symbols outcome, ?_, ?_, ?_, ?_, ?_, ?_⟩
  · rw [List.map_map]
    exact List.map_id _
  · exact nodup_dedupFirst _
  · exact fun s => mem_dedupFirst s _
  · decide
  · intro s hs
    rw [lookupPrice_map]
    rw [if_pos hs]
    cases houtcome : outcome s with
    | failure => rfl
    | success data =>
      simp only [quoteSettled]
      cases data.optGet "c" <;> rfl
  · intro s hs
    rw [lookupPrice_map]
    exact if_neg hs

/-- C2 witness: concrete symbols and a concrete outcome pattern. -/
theorem fetchPricesForSymbols_keys_values_witness :
    ∃ m, fetchPricesForSymbols (some "finnhub-key") ["aapl", "AAPL", "msft"]
        (fun _ => FetchOutcome.success (.obj [("c", .num (.finite 10))])) = Except.ok m ∧
      m.map Prod.fst = requestedSymbols ["aapl", "AAPL", "msft"] ∧
      (requestedSymbols ["aapl", "AAPL", "msft"]).Nodup ∧
      (∀ s, s ∈ requestedSymbols ["aapl", "AAPL", "msft"] ↔
        s ∈ (["aapl", "AAPL", "msft"].map normalizeSymbol)) ∧
      requestedSymbols ["aapl", "AAPL", "msft"] = ["AAPL", "MSFT"] ∧
      (∀ s ∈ requestedSymbols ["aapl", "AAPL", "msft"],
        lookupPrice m s = some (match (fun (_ : String) =>
            FetchOutcome.success (.obj [("c", .num (.finite 10))])) s with
          | .success data =>
            match data.optGet "c" with
            | .num n => JSValue.num n
            | _ => JSValue.null
          | .failure => JSValue.null)) ∧
      (∀ s, s ∉ requestedSymbols ["aapl", "AAPL", "msft"] → lookupPrice m s = none) :=
  fetchPricesForSymbols_keys_values "finnhub-key" (by decide) ["aapl", "AAPL", "msft"]
    (fun _ => FetchOutcome.success (.obj [("c", .num (.finite 10))]))

/-! ## C3 -/

/-- C3 counterexample: the claim says every infinite quantity is rejected,
but `validatePortfolioInput` accepts `{symbol: "AAPL", quantity: Infinity}`
(the code tests `Number.isNaN` and `< 0` but never `Number.isFinite`). -/
theorem validate_accepts_infinite_quantity :
    validatePortfolioInput
      (.arr [.obj [("symbol", .str "AAPL"), ("quantity", .num .inf)]]) = none :=
  rfl

/-- C3 (amended): for an item with the `quantity` field present,
`validatePortfolioInput` accepts exactly when the quantity is a number that
is neither NaN nor negative — so +Infinity is accepted; every negative,
NaN or non-numeric quantity draws the quantity error message, and an item
with `quantity` omitted is accepted. -/
theorem validatePortfolio_quantity_rule (q : JSValue) :
    (validatePortfolioInput
        (.arr [.obj [("symbol", .str "AAPL"), ("quantity", q)]]) = none
      ↔ q = .undefined ∨ ∃ n, q = JSValue.num n ∧ n.isNaN = false ∧ n.ltZero = false) ∧
    (validatePortfolioInput
        (.arr [.obj [("symbol", .str "AAPL"), ("quantity", q)]]) ≠ none →
      validatePortfolioInput
        (.arr [.obj [("symbol", .str "AAPL"), ("quantity", q)]]) =
        some "`quantity` must be a non-negative number when provided") ∧
    validatePortfolioInput (.arr [.obj [("symbol", .str "AAPL")]]) = none := by
  have hq : validatePortfolioInput
      (.arr [.obj [("symbol", .str "AAPL"), ("quantity", q)]]) =
      if quantityInvalid q then
        some "`quantity` must be a non-negative number when provided"
      else none := rfl
  refine ⟨?_, ?_, rfl⟩
  · rw [hq]
    cases q <;> simp [quantityInvalid]
  · rw [hq]
    cases hb : quantityInvalid q <;> simp

/-! ## C4 -/

/-- C4: with a non-empty shared secret configured, `apiKeyMiddleware`
passes the request on exactly when the `x-api-key` header equals the
secret, and answers 401 `{error:"Unauthorized"}` exactly when the header is
absent or differs; in that case the whole route answers 401 regardless of
the request body; with the secret unconfigured (absent or empty), the
middleware answers 500 with the missing-env message for every header,
never 401 and never success. -/
theorem apiKeyMiddleware_auth (secret : String) (hsecret : secret ≠ "")
    (header : Option String) :
    (apiKeyMiddleware (some secret) header = .next ↔ header = some secret) ∧
    (apiKeyMiddleware (some secret) header =
        .respond ⟨statusNum 401, .obj [("error", .str "Unauthorized")]⟩
      ↔ header ≠ some secret) ∧
    (∀ env : EnvConfig, env.AI_SERVICE_KEY = some secret →
      ∀ body outcome completionResult, header ≠ some secret →
        analyzeRoute env header body outcome completionResult =
          ⟨statusNum 401, .obj [("error", .str "Unauthorized")]⟩) ∧
    (∀ missing : Option String, missing = none ∨ missing = some "" →
      ∀ anyHeader, apiKeyMiddleware missing anyHeader =
        .respond ⟨statusNum 500,
          .obj [("error", .str "Missing required env: AI_SERVICE_KEY")]⟩) := by
  have hreq : requireEnv "AI_SERVICE_KEY" (some secret) = .ok secret := by
    simp [requireEnv, hsecret]
  have h401 : apiKeyMiddleware (some secret) header =
        .respond ⟨statusNum 401, .obj [("error", .str "Unauthorized")]⟩
      ↔ header ≠ some secret := by
    cases header with
    | none => simp [apiKeyMiddleware, hreq]
    | some provided =>
      by_cases hp : provided = secret
      · subst hp
        simp [apiKeyMiddleware, hreq, hsecret]
      · simp [apiKeyMiddleware, hreq, hp]
  have hnext : apiKeyMiddleware (some secret) header = .next ↔ header = some secret := by
    cases header with
    | none => simp [apiKeyMiddleware, hreq]
    | some provided =>
      by_cases hp : provided = secret
      · subst hp
        simp [apiKeyMiddleware, hreq, hsecret]
      · simp [apiKeyMiddleware, hreq, hp]
  refine ⟨hnext, h401, ?_, ?_⟩
  · intro env henv body outcome completionResult hne
    rw [analyzeRoute, henv, h401.mpr hne]
  · rintro missing (rfl | rfl) anyHeader <;> simp [apiKeyMiddleware, requireEnv]

/-- C4 witness: a concrete non-empty secret, with the header absent. -/
theorem apiKeyMiddleware_auth_witness :
    (apiKeyMiddleware (some "s3cret") none = .next ↔ none = some "s3cret") ∧
    (apiKeyMiddleware (some "s3cret") none =
        .respond ⟨statusNum 401, .obj [("error", .str "Unauthorized")]⟩
      ↔ none ≠ some "s3cret") ∧
    (∀ env : EnvConfig, env.AI_SERVICE_KEY = some "s3cret" →
      ∀ body outcome completionResult, none ≠ some "s3cret" →
        analyzeRoute env none body outcome completionResult =
          ⟨statusNum 401, .obj [("error", .str "Unauthorized")]⟩) ∧
    (∀ missing : Option String, missing = none ∨ missing = some "" →
      ∀ anyHeader, apiKeyMiddleware missing anyHeader =
        .respond ⟨statusNum 500,
          .obj [("error", .str "Missing required env: AI_SERVICE_KEY")]⟩) :=
  apiKeyMiddleware_auth "s3cret" (by decide) none

/-! ## C5 -/

theorem length_pos_iff_ne_empty (t : String) : (0 < t.length) ↔ t ≠ "" := by
  rw [String.length, Nat.pos_iff_ne_zero, ne_eq, List.length_eq_zero]
  cases t
  simp [String.ext_iff]

theorem itemObjectCheck_eq (item : JSValue) :
    (item.truthy && typeofIsObject item) = specIsObject item := by
  cases item <;> simp [JSValue.truthy, typeofIsObject, specIsObject]

theorem itemSymbolCheck_eq (item : JSValue) :
    isNonEmptyString (item.optGet "symbol") = specSymbolOk item := by
  cases h : item.optGet "symbol" <;>
    simp [isNonEmptyString, specSymbolOk, h, length_pos_iff_ne_empty]

theorem itemQuantityCheck_eq (item : JSValue) :
    quantityInvalid (item.optGet "quantity") = !specQuantityOk item := by
  cases h : item.optGet "quantity" <;>
    simp [quantityInvalid, specQuantityOk, h]

theorem validateItems_eq_spec (items : List JSValue) :
    validateItems items = firstItemError items := by
  induction items with
  | nil => rfl
  | cons item rest ih =>
    rw [validateItems, firstItemError, specItemError, itemObjectCheck_eq,
      itemSymbolCheck_eq, itemQuantityCheck_eq]
    by_cases h1 : specIsObject item
    · by_cases h2 : specSymbolOk item
      · by_cases h3 : specQuantityOk item
        · simp [h1, h2, h3, ih]
        · simp [h1, h2, h3]
      · simp [h1, h2]
    · simp [h1]

theorem validateItems_none_iff (items : List JSValue) :
    validateItems items = none ↔
      ∀ item ∈ items,
        specIsObject item = true ∧ specSymbolOk item = true ∧
          specQuantityOk item = true := by
  induction items with
  | nil => simp [validateItems]
  | cons item rest ih =>
    rw [validateItems, itemObjectCheck_eq, itemSymbolCheck_eq, itemQuantityCheck_eq]
    by_cases h1 : specIsObject item
    · by_cases h2 : specSymbolOk item
      · by_cases h3 : specQuantityOk item
        · simp [h1, h2, h3, ih]
        · simp [h1, h2, h3]
      · simp [h1, h2]
    · simp [h1]

theorem item_accept_iff (item : JSValue) :
    (specIsObject item = true ∧ specSymbolOk item = true ∧
        specQuantityOk item = true) ↔
      ((∃ fields, item = JSValue.obj fields) ∧
        (∃ s, item.optGet "symbol" = .str s ∧ jsTrim s ≠ "") ∧
        specQuantityOk item = true) := by
  constructor
  · rintro ⟨h1, h2, h3⟩
    have hsym : ∃ s, item.optGet "symbol" = .str s ∧ jsTrim s ≠ "" := by
      cases hs : item.optGet "symbol" <;> simp [specSymbolOk, hs] at h2
      exact ⟨_, rfl, h2⟩
    refine ⟨?_, hsym, h3⟩
    obtain ⟨s, hs, -⟩ := hsym
    cases item <;> first
      | exact ⟨_, rfl⟩
      | simp_all [specIsObject, JSValue.optGet]
  · rintro ⟨⟨fields, rfl⟩, ⟨s, hs, hne⟩, h3⟩
    refine ⟨rfl, ?_, h3⟩
    simp only [specSymbolOk, hs]
    simpa using hne

/-- C5: `validatePortfolioInput` equals the spec's rule list (rules in
order, first failure's message returned), and it returns no error exactly
when the value is a non-empty array whose every element is a non-null
object carrying a `symbol` string with non-whitespace content and, when
present, a quantity passing the quantity rule as implemented. -/
theorem validatePortfolioInput_spec (portfolio : JSValue) :
    validatePortfolioInput portfolio = validatePortfolioSpec portfolio ∧
    (validatePortfolioInput portfolio = none ↔
      ∃ items, portfolio = JSValue.arr items ∧ items ≠ [] ∧
        ∀ item ∈ items,
          (∃ fields, item = JSValue.obj fields) ∧
          (∃ s, item.optGet "symbol" = .str s ∧ jsTrim s ≠ "") ∧
          specQuantityOk item = true) := by
  constructor
  · cases portfolio <;>
      simp only [validatePortfolioInput, validatePortfolioSpec, validateItems_eq_spec]
  · cases portfolio with
    | arr items =>
      by_cases hne : items = []
      · subst hne
        simp [validatePortfolioInput]
      · have hlen : ¬items.length = 0 := by
          simpa [List.length_eq_zero] using hne
        have hv : validatePortfolioInput (JSValue.arr items) = validateItems items := by
          simp [validatePortfolioInput, hlen]
        rw [hv, validateItems_none_iff]
        constructor
        · intro h
          exact ⟨items, rfl, hne, fun item hm => (item_accept_iff item).mp (h item hm)⟩
        · rintro ⟨items', heq, -, h⟩
          obtain rfl : items = items' := by injection heq
          exact fun item hm => (item_accept_iff item).mpr (h item hm)
    | null => simp [validatePortfolioInput]
    | undefined => simp [validatePortfolioInput]
    | bool b => simp [validatePortfolioInput]
    | num n => simp [validatePortfolioInput]
    | str s => simp [validatePortfolioInput]
    | obj fields => simp [validatePortfolioInput]

/-! ## C6 -/

/-- C6 counterexample: with the non-empty allow-list parsed from
`ALLOWED_ORIGINS=https://good.example` and an Origin header PRESENT with the
empty-string value — which is not a member of the list — the gate allows
the request (`!origin` is true for `""`), while the claim demands rejection
of every present non-member Origin. -/
theorem cors_allows_empty_origin_header :
    corsOriginAllows (allowedOriginsOf (some "https://good.example")) (some "") = true ∧
    (some "" : Option String) ≠ none ∧
    allowedOriginsOf (some "https://good.example") ≠ [] ∧
    "" ∉ allowedOriginsOf (some "https://good.example") :=
  ⟨rfl, by simp, by decide, by decide⟩

/-- C6 (amended): the CORS gate rejects exactly when an Origin header with a
non-empty value is present, the allow-list is non-empty, and that value is
not in the list; an absent (or empty-valued) Origin header, or an empty or
unset allow-list, always allows.  The spec's two concrete examples hold. -/
theorem corsOriginAllows_spec (allowed : List String) (origin : Option String) :
    (corsOriginAllows allowed origin = false ↔
      ∃ o, origin = some o ∧ o ≠ "" ∧ allowed ≠ [] ∧ o ∉ allowed) ∧
    corsOriginAllows (allowedOriginsOf (some "https://good.example"))
      (some "https://evil.example") = false ∧
    corsOriginAllows (allowedOriginsOf none) (some "https://evil.example") = true := by
  refine ⟨?_, by decide, rfl⟩
  cases origin with
  | none => simp [corsOriginAllows]
  | some o =>
    by_cases ho : o = ""
    · subst ho
      simp [corsOriginAllows]
    · by_cases hl : allowed.length = 0
      · obtain rfl : allowed = [] := List.length_eq_zero.mp hl
        simp [corsOriginAllows, ho]
      · have hne : allowed ≠ [] := by
          intro h
          exact hl (by simp [h])
        by_cases hm : o ∈ allowed
        · simp [corsOriginAllows, ho, hl, hne, List.elem_iff, hm]
        · simp [corsOriginAllows, ho, hl, hne, List.elem_iff, hm]

/-! ## C7 -/

/-- C7: for every error caught by the /analyze-portfolio handler, the body
is a JSON object `{error: s}` with `s` always a string; the response status
is the upstream `error?.response?.status` whenever that value is truthy
(any genuine numeric HTTP status) and 500 when it is absent or falsy; a
string coalesced message is passed through and a non-string one is replaced
by the fixed string `AI analysis failed`. -/
theorem analyzeCatch_spec (error : JSValue) :
    (∃ s : String, (analyzeCatch error).body = .obj [("error", .str s)]) ∧
    (((error.optGet "response").optGet "status").truthy = true →
      (analyzeCatch error).status = (error.optGet "response").optGet "status") ∧
    (((error.optGet "response").optGet "status").truthy = false →
      (analyzeCatch error).status = statusNum 500) ∧
    (∀ s, catchMessage error = .str s →
      (analyzeCatch error).body = .obj [("error", .str s)]) ∧
    ((∀ s, catchMessage error ≠ .str s) →
      (analyzeCatch error).body = .obj [("error", .str "AI analysis failed")]) := by
  refine ⟨?_, ?_, ?_, ?_, ?_⟩
  · cases hm : catchMessage error <;> simp [analyzeCatch, hm]
  · intro h
    simp [analyzeCatch, catchStatus, JSValue.orElse, h]
  · intro h
    simp [analyzeCatch, catchStatus, JSValue.orElse, h]
  · intro s hs
    simp [analyzeCatch, hs]
  · intro h
    cases hm : catchMessage error <;> simp [analyzeCatch, hm]
    exact absurd hm (h _)

/-! ## C8 -/

/-- C8: for a valid body, when `includePrices` is falsy the handler
performs no price fetch — its result is independent of the quote outcomes
and the quote-provider key — and on completion success answers 200 with an
`analysis` entry and no `prices` key; when prices are requested (truthy
`includePrices`) and the key is configured, completion success answers 200
with both `analysis` and `prices`.  A falsy completion content chain falls
back to the fixed analysis string. -/
theorem analyzeHandler_includePrices
    (body completion : JSValue)
    (hvalid : validatePortfolioInput ((body.orElse (.obj [])).optGet "portfolio") = none) :
    ((includePricesOf body).truthy = false →
      (∀ f1 f2 o1 o2 comp,
        analyzeHandler f1 body o1 comp = analyzeHandler f2 body o2 comp) ∧
      (∀ fk o, analyzeHandler fk body o (.ok completion) =
        ⟨statusNum 200, .obj [("analysis", analysisOf completion)]⟩)) ∧
    ((includePricesOf body).truthy = true →
      ∀ fk o, fk ≠ "" →
        analyzeHandler (some fk) body o (.ok completion) =
          ⟨statusNum 200,
           .obj [("analysis", analysisOf completion),
                 ("prices", .obj
                   ((requestedSymbols (portfolioSymbols
                       ((body.orElse (.obj [])).optGet "portfolio"))).map
                     (fun s => (s, priceOrNull (quoteSettled (o s))))))]⟩) ∧
    (∀ c : JSValue,
      ((((c.optGet "choices").optIdx 0).optGet "message").optGet "content").truthy
          = false →
      analysisOf c = .str "No analysis available.") := by
  refine ⟨?_, ?_, ?_⟩
  · intro hfalse
    constructor
    · intro f1 f2 o1 o2 comp
      simp [analyzeHandler, hvalid, hfalse]
    · intro fk o
      simp [analyzeHandler, hvalid, hfalse]
  · intro htrue fk o hfk
    simp [analyzeHandler, hvalid, htrue, fetchPrices_ok fk hfk]
  · intro c hc
    simp [analysisOf, JSValue.orElse, hc]

/-- C8 witness: a concrete valid one-item portfolio with
`includePrices: false` and a concrete successful completion. -/
theorem analyzeHandler_includePrices_witness :
    ((includePricesOf (.obj [("portfolio",
          .arr [.obj [("symbol", .str "AAPL"), ("quantity", .num (.finite 5))]]),
        ("includePrices", .bool false)])).truthy = false →
      (∀ f1 f2 o1 o2 comp,
        analyzeHandler f1 (.obj [("portfolio",
            .arr [.obj [("symbol", .str "AAPL"), ("quantity", .num (.finite 5))]]),
          ("includePrices", .bool false)]) o1 comp =
        analyzeHandler f2 (.obj [("portfolio",
            .arr [.obj [("symbol", .str "AAPL"), ("quantity", .num (.finite 5))]]),
          ("includePrices", .bool false)]) o2 comp) ∧
      (∀ fk o, analyzeHandler fk (.obj [("portfolio",
            .arr [.obj [("symbol", .str "AAPL"), ("quantity", .num (.finite 5))]]),
          ("includePrices", .bool false)]) o
          (.ok (.obj [("choices",
            .arr [.obj [("message", .obj [("content", .str "Fine.")])]])])) =
        ⟨statusNum 200, .obj [("analysis", analysisOf (.obj [("choices",
          .arr [.obj [("message", .obj [("content", .str "Fine.")])]])]))]⟩)) ∧
    ((includePricesOf (.obj [("portfolio",
          .arr [.obj [("symbol", .str "AAPL"), ("quantity", .num (.finite 5))]]),
        ("includePrices", .bool false)])).truthy = true →
      ∀ fk o, fk ≠ "" →
        analyzeHandler (some fk) (.obj [("portfolio",
            .arr [.obj [("symbol", .str "AAPL"), ("quantity", .num (.finite 5))]]),
          ("includePrices", .bool false)]) o
          (.ok (.obj [("choices",
            .arr [.obj [("message", .obj [("content", .str "Fine.")])]])])) =
          ⟨statusNum 200,
           .obj [("analysis", analysisOf (.obj [("choices",
             .arr [.obj [("message", .obj [("content", .str "Fine.")])]])])),
                 ("prices", .obj
                   ((requestedSymbols (portfolioSymbols
                       (((.obj [("portfolio",
                           .arr [.obj [("symbol", .str "AAPL"),
                             ("quantity", .num (.finite 5))]]),
                         ("includePrices", .bool false)] : JSValue).orElse
                          (.obj [])).optGet "portfolio"))).map
                     (fun s => (s, priceOrNull (quoteSettled (o s))))))]⟩) ∧
    (∀ c : JSValue,
      ((((c.optGet "choices").optIdx 0).optGet "message").optGet "content").truthy
          = false →
      analysisOf c = .str "No analysis available.") :=
  analyzeHandler_includePrices
    (.obj [("portfolio",
        .arr [.obj [("symbol", .str "AAPL"), ("quantity", .num (.finite 5))]]),
      ("includePrices", .bool false)])
    (.obj [("choices", .arr [.obj [("message", .obj [("content", .str "Fine.")])]])])
    rfl

/-! ## C9 -/

/-- C9: the health endpoint always answers 200 (no api-key middleware is
mounted on it: `healthResponse` takes only the environment), and the
response depends on each secret only through presence: environments whose
secrets differ in value but agree in truthiness, with equal ALLOWED_ORIGINS
and NODE_ENV, produce identical responses — no secret value reaches the
response. -/
theorem healthResponse_presence_only (e1 e2 : EnvConfig)
    (h1 : envBool e1.OPEN_AI_KEY = envBool e2.OPEN_AI_KEY)
    (h2 : envBool e1.FINNHUB_API_KEY = envBool e2.FINNHUB_API_KEY)
    (h3 : envBool e1.AI_SERVICE_KEY = envBool e2.AI_SERVICE_KEY)
    (h4 : e1.ALLOWED_ORIGINS = e2.ALLOWED_ORIGINS)
    (h5 : e1.NODE_ENV = e2.NODE_ENV) :
    healthResponse e1 = healthResponse e2 ∧
    (healthResponse e1).status = statusNum 200 := by
  constructor
  · simp only [healthResponse, h1, h2, h3, h4, h5]
  · rfl

/-- C9 witness: two environments with different secret values but the same
presence pattern. -/
theorem healthResponse_presence_only_witness :
    healthResponse ⟨some "sk-aaa", some "fh-aaa", some "svc-aaa", none, none⟩ =
      healthResponse ⟨some "sk-bbb", some "fh-bbb", some "svc-bbb", none, none⟩ ∧
    (healthResponse ⟨some "sk-aaa", some "fh-aaa", some "svc-aaa",
      none, none⟩).status = statusNum 200 :=
  healthResponse_presence_only
    ⟨some "sk-aaa", some "fh-aaa", some "svc-aaa", none, none⟩
    ⟨some "sk-bbb", some "fh-bbb", some "svc-bbb", none, none⟩
    rfl rfl rfl rfl rfl

/-! ## C10 -/

/-- C10: with AI_SERVICE_KEY set to the empty string, every
POST /analyze-portfolio request — including one whose x-api-key header is
itself the empty string — answers 500 with the missing-env message, never
401 and never success, because `requireEnv` treats any falsy environment
value (absent or empty) as missing. -/
theorem analyzeRoute_empty_secret (e : EnvConfig) (header : Option String)
    (body : JSValue) (outcome : String → FetchOutcome)
    (completionResult : Except JSValue JSValue) :
    analyzeRoute { e with AI_SERVICE_KEY := some "" } header body outcome
        completionResult =
      ⟨statusNum 500, .obj [("error", .str "Missing required env: AI_SERVICE_KEY")]⟩ ∧
    analyzeRoute { e with AI_SERVICE_KEY := some "" } (some "") body outcome
        completionResult =
      ⟨statusNum 500, .obj [("error", .str "Missing required env: AI_SERVICE_KEY")]⟩ ∧
    requireEnv "AI_SERVICE_KEY" (some "") =
      .error "Missing required env: AI_SERVICE_KEY" := by
  refine ⟨?_, ?_, rfl⟩ <;> simp [analyzeRoute, apiKeyMiddleware, requireEnv]
